import Mathlib

/-!
Verification of the rust-rocks `rocks-sys` C shim (`src/rocks-sys/rocks/`).

The shim marshals byte ranges, converts `rocksdb::Status` results into
out-parameters, and wraps user callbacks behind `extern "C"` trampolines.
We embed the shim functions directly from the C++ sources; the wrapped
RocksDB engine itself is not part of the repository, so engine entry
points (`DB::Put`, `DB::Get`, `WriteBatch::RollbackToSavePoint`,
`WriteBatch::Iterate`, ...) are modelled from the repository's
specification where a claim depends on them (each such definition is
marked `Modelled from the spec:`).

Modelling conventions:
* C memory is a byte-addressed function `Nat → Nat`; `rocksdb::Slice(p, n)`
  built from a `const char*` plus an explicit length is `sliceBytes mem p n`.
* A `rocks_status_t**` out-parameter is an `Option Status` result:
  `none` models the null pointer stored on success, `some st` models the
  freshly allocated status stored on failure (`SaveError` in ctypes.hpp).
* Nullable C pointers are `Option Nat`.
-/

namespace RocksSys

/-- A byte range in C memory: arbitrary bytes, never NUL-terminated. -/
abbrev Bytes := List Nat

/-- The bytes of `rocksdb::Slice(p, len)` over byte-addressed memory `mem`:
exactly `len` bytes starting at address `p`, independent of their values
(no NUL truncation). -/
def sliceBytes (mem : Nat → Nat) (p len : Nat) : Bytes :=
  (List.range len).map (fun i => mem (p + i))

/-- The `rocksdb::Status::Code` enumeration (rocksdb/status.h), as exposed
through `rocks_status_code`. -/
inductive StatusCode where
  | ok
  | notFound
  | corruption
  | notSupported
  | invalidArgument
  | ioError
  | mergeInProgress
  | incomplete
  | shutdownInProgress
  | timedOut
  | aborted
  | busy
  | expired
  | tryAgain
  deriving DecidableEq, Repr, Fintype

/-- The integer value of each `Status::Code` enumerator, in declaration
order as in rocksdb/status.h; this is what `rocks_status_code` returns. -/
def StatusCode.toCInt : StatusCode → Nat
  | .ok => 0
  | .notFound => 1
  | .corruption => 2
  | .notSupported => 3
  | .invalidArgument => 4
  | .ioError => 5
  | .mergeInProgress => 6
  | .incomplete => 7
  | .shutdownInProgress => 8
  | .timedOut => 9
  | .aborted => 10
  | .busy => 11
  | .expired => 12
  | .tryAgain => 13

/-- A `rocksdb::Status`: a code together with its (possibly empty)
message bytes. -/
structure Status where
  code : StatusCode
  msg : Bytes
  deriving DecidableEq, Repr

/-- `Status::OK()`. -/
def Status.OK : Status := ⟨.ok, []⟩

/-- `Status::NotFound()` with no message. -/
def Status.NotFound : Status := ⟨.notFound, []⟩

/-- `Status::InvalidArgument(msg)`. -/
def Status.InvalidArgument (m : Bytes) : Status := ⟨.invalidArgument, m⟩

/-- `SaveError` (ctypes.hpp): stores null in the `rocks_status_t**`
out-parameter when the status is OK, otherwise a freshly allocated
status holding it.  The returned `Option Status` is the final value of
the out-parameter. -/
def SaveError (s : Status) : Option Status :=
  if s.code = .ok then none else some s

/-- `rocks_status_code` (status.cc): returns `s->rep.code()`. -/
def rocks_status_code (s : Status) : Nat := s.code.toCInt

/-- `rocks_status_subcode` is not needed by the claims; `rocks_status_create_with_code_and_msg`
(status.cc): casts `code` to `Status::Code`, builds `Slice(msg, len)`, and
returns `new rocks_status_t{Status::InvalidArgument(message)}` — the cast
code is never used. -/
def rocks_status_create_with_code_and_msg (code : Int) (mem : Nat → Nat)
    (msg len : Nat) : Status :=
  Status.InvalidArgument (sliceBytes mem msg len)

/-- Modelled from the spec: the engine DB's per-column-family read/write
state. Missing from src/: `rocksdb::DB::Put/Delete/Get` live in the
wrapped engine.  The spec (§3, §4.4) describes an ordered mutation log
where the newest record for a key wins and a Delete leaves a tombstone;
we keep the records newest-first, `none` being a tombstone. -/
abbrev EngineDB := List (Bytes × Option Bytes)

/-- The newest record for key `k`, if any (spec §4.4: `get` stops at the
first definitive result, newest first). -/
def findRecord : EngineDB → Bytes → Option (Option Bytes)
  | [], _ => none
  | (k', r) :: rest, k => if k' = k then some r else findRecord rest k

/-- Modelled from the spec: `DB::Put` appends the record and succeeds
(§4.4; §8 write-then-read assumes the put succeeded). -/
def DB.Put (db : EngineDB) (k v : Bytes) : EngineDB × Status :=
  ((k, some v) :: db, Status.OK)

/-- Modelled from the spec: `DB::Delete` appends a tombstone (§3, §8). -/
def DB.Delete (db : EngineDB) (k : Bytes) : EngineDB × Status :=
  ((k, none) :: db, Status.OK)

/-- Modelled from the spec: `DB::Get` returns the newest value for the
key, or `NotFound` on a tombstone or absent key, `NotFound` being
distinct from real errors (§4.4, §7). The first component is the value
pinned into the `PinnableSlice` out-parameter (unchanged `[]` when not
found). -/
def DB.Get (db : EngineDB) (k : Bytes) : Bytes × Status :=
  match findRecord db k with
  | some (some v) => (v, Status.OK)
  | some none => ([], Status.NotFound)
  | none => ([], Status.NotFound)

/-- `rocks_db_put` (db.cc): forwards `Slice(key, keylen)` and
`Slice(val, vallen)` to `DB::Put` and stores the result through
`SaveError`. Returns the updated engine state and the status
out-parameter. -/
def rocks_db_put (db : EngineDB) (mem : Nat → Nat)
    (key keylen val vallen : Nat) : EngineDB × Option Status :=
  let r := DB.Put db (sliceBytes mem key keylen) (sliceBytes mem val vallen)
  (r.1, SaveError r.2)

/-- `rocks_db_get_pinnable` (db.cc): calls `DB::Get` on the default
column family with `Slice(key, keylen)` and a `PinnableSlice`
out-parameter, then `SaveError`.  Returns the pinned bytes and the
status out-parameter. -/
def rocks_db_get_pinnable (db : EngineDB) (mem : Nat → Nat)
    (key keylen : Nat) : Bytes × Option Status :=
  let r := DB.Get db (sliceBytes mem key keylen)
  (r.1, SaveError r.2)

/-- `rocks_pinnable_slice_data` (slice.cc): returns `s->rep.data()`,
modelled as the pinned bytes themselves. -/
def rocks_pinnable_slice_data (s : Bytes) : Bytes := s

/-- `rocks_pinnable_slice_size` (slice.cc): returns `s->rep.size()`. -/
def rocks_pinnable_slice_size (s : Bytes) : Nat := s.length

/-- A column family handle as seen through the shim: the engine object
carries an id and a name (`ColumnFamilyHandle::GetID()` is what
`rocks_column_family_handle_destroy` inspects). -/
structure ColumnFamilyHandle where
  id : Nat
  name : Bytes
  deriving DecidableEq, Repr

/-- The open column families of a DB (engine-side state). -/
structure EngineCFs where
  cfs : List ColumnFamilyHandle
  deriving DecidableEq, Repr

/-- The name bytes of the default column family. -/
def defaultCFName : Bytes := [100, 101, 102, 97, 117, 108, 116]

/-- Modelled from the spec: `DB::DefaultColumnFamily` returns the handle
of the default column family, which has id 0 (§3 ColumnFamilyHandle).
Missing from src/: the engine's `DB` object. -/
def DB.DefaultColumnFamily (db : EngineCFs) : ColumnFamilyHandle :=
  ⟨0, defaultCFName⟩

/-- Modelled from the spec: `DB::DropColumnFamily`.  The default column
family (id 0) cannot be dropped (§3); dropping an open non-default
column family removes it and succeeds; a handle that is not open is a
caller error (§7 InvalidArgument). -/
def DB.DropColumnFamily (db : EngineCFs) (h : ColumnFamilyHandle) :
    EngineCFs × Status :=
  if h.id = 0 then (db, Status.InvalidArgument [])
  else if h ∈ db.cfs then (⟨db.cfs.erase h⟩, Status.OK)
  else (db, Status.InvalidArgument [])

/-- `rocks_db_default_column_family` (db.cc): wraps
`db->rep->DefaultColumnFamily()` in a fresh handle struct. -/
def rocks_db_default_column_family (db : EngineCFs) : ColumnFamilyHandle :=
  DB.DefaultColumnFamily db

/-- `rocks_db_drop_column_family` (db.cc): forwards to
`DB::DropColumnFamily` and stores the result through `SaveError`. -/
def rocks_db_drop_column_family (db : EngineCFs) (h : ColumnFamilyHandle) :
    EngineCFs × Option Status :=
  let r := DB.DropColumnFamily db h
  (r.1, SaveError r.2)

/-- `rocks_column_family_handle_destroy` (db.cc): deletes the underlying
`ColumnFamilyHandle*` only when its id is not 0, and always deletes the
wrapper struct.  Result: (underlying handle deleted?, wrapper deleted?). -/
def rocks_column_family_handle_destroy (h : ColumnFamilyHandle) :
    Bool × Bool :=
  (decide (h.id ≠ 0), true)

/-- Insertion into `std::unordered_map<std::string, std::string>`
viewed as an association list: a later value for an existing key
overwrites it. -/
def insertAssoc (m : List (Bytes × Bytes)) (k v : Bytes) :
    List (Bytes × Bytes) :=
  if m.any (fun kv => kv.1 = k) then
    m.map (fun kv => if kv.1 = k then (k, v) else kv)
  else m ++ [(k, v)]

/-- The `new_options` map built by `rocks_db_set_options_cf` /
`rocks_db_set_db_options` (db.cc): for each `i < num_options`,
`new_options[string(keys[i], key_lens[i])] = string(vals[i], val_lens[i])`.
`keys i` / `vals i` are the i-th pointers of the C arrays. -/
def buildOptionsMap (mem : Nat → Nat) (num_options : Nat)
    (keys key_lens vals val_lens : Nat → Nat) : List (Bytes × Bytes) :=
  (List.range num_options).foldl
    (fun m i =>
      insertAssoc m (sliceBytes mem (keys i) (key_lens i))
        (sliceBytes mem (vals i) (val_lens i)))
    []

/-- Modelled from the spec: `DB::SetOptions` (dynamic reconfiguration)
rejects a map containing any unrecognized option name with
`InvalidArgument` instead of silently ignoring it (§6 Configuration);
`recognized` is the set of dynamically settable option names.  Missing
from src/: the engine's option parsing. -/
def DB.SetOptions (recognized : List Bytes)
    (opts : List (Bytes × Bytes)) : Status :=
  if opts.all (fun kv => recognized.contains kv.1) then Status.OK
  else Status.InvalidArgument []

/-- Modelled from the spec: `DB::SetDBOptions`, same rejection rule as
`DB::SetOptions` (§6 Configuration). -/
def DB.SetDBOptions (recognized : List Bytes)
    (opts : List (Bytes × Bytes)) : Status :=
  if opts.all (fun kv => recognized.contains kv.1) then Status.OK
  else Status.InvalidArgument []

/-- `rocks_db_set_options_cf` (db.cc): builds `new_options` from the key
and value arrays and forwards to `DB::SetOptions`, saving the status. -/
def rocks_db_set_options_cf (recognized : List Bytes) (mem : Nat → Nat)
    (num_options : Nat) (keys key_lens vals val_lens : Nat → Nat) :
    Option Status :=
  SaveError (DB.SetOptions recognized
    (buildOptionsMap mem num_options keys key_lens vals val_lens))

/-- `rocks_db_set_db_options` (db.cc): builds `new_options` from the key
and value arrays and forwards to `DB::SetDBOptions`, saving the status. -/
def rocks_db_set_db_options (recognized : List Bytes) (mem : Nat → Nat)
    (num_options : Nat) (keys key_lens vals val_lens : Nat → Nat) :
    Option Status :=
  SaveError (DB.SetDBOptions recognized
    (buildOptionsMap mem num_options keys key_lens vals val_lens))

/-- One record of a WriteBatch (spec §3: Put, Delete, SingleDelete,
Merge, DeleteRange, log-data blobs, and the two-phase-commit markers).
Key/value records carry the column family id the engine stores with
them (`WriteBatch::Handler` callbacks receive it back). -/
inductive WBRecord where
  | putRec (cf : Nat) (k v : Bytes)
  | deleteRec (cf : Nat) (k : Bytes)
  | singleDeleteRec (cf : Nat) (k : Bytes)
  | deleteRangeRec (cf : Nat) (b e : Bytes)
  | mergeRec (cf : Nat) (k v : Bytes)
  | logDataRec (blob : Bytes)
  | beginPrepareRec
  | endPrepareRec (xid : Bytes)
  | commitRec (xid : Bytes)
  | rollbackRec (xid : Bytes)
  deriving DecidableEq, Repr

/-- Modelled from the spec: a `rocksdb::WriteBatch` is an ordered list of
records plus a save-point stack of indices into the record list (§3).
Missing from src/: the engine's WriteBatch representation. -/
structure WriteBatch where
  records : List WBRecord
  savePoints : List Nat
  deriving DecidableEq, Repr

/-- Modelled from the spec: `WriteBatch::Put` appends one Put record
(§4.1); the non-cf overload targets the default column family (id 0). -/
def WriteBatch.Put (b : WriteBatch) (cf : Nat) (k v : Bytes) : WriteBatch :=
  { b with records := b.records ++ [.putRec cf k v] }

/-- Modelled from the spec: `WriteBatch::Delete` appends one Delete
record (§4.1). -/
def WriteBatch.Delete (b : WriteBatch) (cf : Nat) (k : Bytes) : WriteBatch :=
  { b with records := b.records ++ [.deleteRec cf k] }

/-- Modelled from the spec: `WriteBatch::SingleDelete` appends one
SingleDelete record (§4.1). -/
def WriteBatch.SingleDelete (b : WriteBatch) (cf : Nat) (k : Bytes) :
    WriteBatch :=
  { b with records := b.records ++ [.singleDeleteRec cf k] }

/-- Modelled from the spec: `WriteBatch::DeleteRange` appends one
DeleteRange record (§4.1). -/
def WriteBatch.DeleteRange (b : WriteBatch) (cf : Nat) (first last : Bytes) :
    WriteBatch :=
  { b with records := b.records ++ [.deleteRangeRec cf first last] }

/-- Modelled from the spec: `WriteBatch::Merge` appends one Merge record
(§4.1). -/
def WriteBatch.Merge (b : WriteBatch) (cf : Nat) (k v : Bytes) : WriteBatch :=
  { b with records := b.records ++ [.mergeRec cf k v] }

/-- Modelled from the spec: `WriteBatch::PutLogData` appends one
log-data blob record (§4.1). -/
def WriteBatch.PutLogData (b : WriteBatch) (blob : Bytes) : WriteBatch :=
  { b with records := b.records ++ [.logDataRec blob] }

/-- Modelled from the spec: `WriteBatch::SetSavePoint` pushes the
current end of the record list onto the save-point stack (§3, §4.1). -/
def WriteBatch.SetSavePoint (b : WriteBatch) : WriteBatch :=
  { b with savePoints := b.records.length :: b.savePoints }

/-- Modelled from the spec: `WriteBatch::RollbackToSavePoint` truncates
the record list back to the most recent save point and pops it; with no
save point available it returns `Status::NotFound` and leaves the batch
unchanged (§4.1). -/
def WriteBatch.RollbackToSavePoint (b : WriteBatch) : WriteBatch × Status :=
  match b.savePoints with
  | [] => (b, Status.NotFound)
  | n :: rest => (⟨b.records.take n, rest⟩, Status.OK)

/-- `rocks_writebatch_put` (write_batch.cc): forwards `Slice(key, klen)`
and `Slice(val, vlen)` to the non-cf `WriteBatch::Put` (default column
family, id 0). -/
def rocks_writebatch_put (b : WriteBatch) (mem : Nat → Nat)
    (key klen val vlen : Nat) : WriteBatch :=
  b.Put 0 (sliceBytes mem key klen) (sliceBytes mem val vlen)

/-- `rocks_writebatch_set_save_point` (write_batch.cc): forwards to
`WriteBatch::SetSavePoint`. -/
def rocks_writebatch_set_save_point (b : WriteBatch) : WriteBatch :=
  b.SetSavePoint

/-- `rocks_writebatch_rollback_to_save_point` (write_batch.cc): forwards
to `WriteBatch::RollbackToSavePoint` and stores the result through
`SaveError`. -/
def rocks_writebatch_rollback_to_save_point (b : WriteBatch) :
    WriteBatch × Option Status :=
  let r := b.RollbackToSavePoint
  (r.1, SaveError r.2)

/-- A record-appending batch operation performed through the shim (one
of the `rocks_writebatch_*` mutation calls); used to say "any sequence
of operations after a save point". -/
inductive WBOp where
  | putOp (cf : Nat) (k v : Bytes)
  | deleteOp (cf : Nat) (k : Bytes)
  | singleDeleteOp (cf : Nat) (k : Bytes)
  | deleteRangeOp (cf : Nat) (b e : Bytes)
  | mergeOp (cf : Nat) (k v : Bytes)
  | logDataOp (blob : Bytes)
  deriving DecidableEq, Repr

/-- The record appended by a batch operation. -/
def WBOp.record : WBOp → WBRecord
  | .putOp cf k v => .putRec cf k v
  | .deleteOp cf k => .deleteRec cf k
  | .singleDeleteOp cf k => .singleDeleteRec cf k
  | .deleteRangeOp cf b e => .deleteRangeRec cf b e
  | .mergeOp cf k v => .mergeRec cf k v
  | .logDataOp blob => .logDataRec blob

/-- Apply one batch operation through the corresponding engine call. -/
def applyOp (b : WriteBatch) : WBOp → WriteBatch
  | .putOp cf k v => b.Put cf k v
  | .deleteOp cf k => b.Delete cf k
  | .singleDeleteOp cf k => b.SingleDelete cf k
  | .deleteRangeOp cf first last => b.DeleteRange cf first last
  | .mergeOp cf k v => b.Merge cf k v
  | .logDataOp blob => b.PutLogData blob

/-- Apply a sequence of batch operations in order. -/
def applyOps (b : WriteBatch) (ops : List WBOp) : WriteBatch :=
  ops.foldl applyOp b

/-- The `WriteBatch::Handler` interface as the engine sees it: one
callback per record kind plus `Continue()`.  The handler owns mutable
state of type `σ` (for a C handler, whatever its callbacks reach
through their context pointer). -/
structure WBHandler (σ : Type) where
  PutCF : σ → Nat → Bytes → Bytes → σ
  DeleteCF : σ → Nat → Bytes → σ
  SingleDeleteCF : σ → Nat → Bytes → σ
  DeleteRangeCF : σ → Nat → Bytes → Bytes → σ
  MergeCF : σ → Nat → Bytes → Bytes → σ
  LogData : σ → Bytes → σ
  MarkBeginPrepare : σ → σ
  MarkEndPrepare : σ → Bytes → σ
  MarkRollback : σ → Bytes → σ
  MarkCommit : σ → Bytes → σ
  Continue : σ → Bool

/-- Dispatch one record to the handler callback of its kind. -/
def WBHandler.dispatch {σ : Type} (h : WBHandler σ) (s : σ) :
    WBRecord → σ
  | .putRec cf k v => h.PutCF s cf k v
  | .deleteRec cf k => h.DeleteCF s cf k
  | .singleDeleteRec cf k => h.SingleDeleteCF s cf k
  | .deleteRangeRec cf b e => h.DeleteRangeCF s cf b e
  | .mergeRec cf k v => h.MergeCF s cf k v
  | .logDataRec blob => h.LogData s blob
  | .beginPrepareRec => h.MarkBeginPrepare s
  | .endPrepareRec xid => h.MarkEndPrepare s xid
  | .commitRec xid => h.MarkCommit s xid
  | .rollbackRec xid => h.MarkRollback s xid

/-- Modelled from the spec: `WriteBatch::Iterate(handler)` replays the
records in insertion order, dispatching to the handler callback of each
record's kind, and ends early when the handler's `Continue()` returns
false (§4.1).  Missing from src/: the engine's iteration loop. -/
def WBHandler.iterateRecs {σ : Type} (h : WBHandler σ) (s : σ) :
    List WBRecord → σ
  | [] => s
  | r :: rs => if h.Continue s then h.iterateRecs (h.dispatch s r) rs else s

/-- `WriteBatch::Iterate` applied to a batch. -/
def WriteBatch.Iterate {σ : Type} (b : WriteBatch) (h : WBHandler σ)
    (s : σ) : σ :=
  h.iterateRecs s b.records

/-- The foreign (Rust) write-batch handler trait object behind
`rocks_writebatch_handler_t`: the `rust_write_batch_handler_*` entry
points of rust_export.h, acting on the trait object's state `σ`. -/
structure RustWBHandler (σ : Type) where
  put_cf : σ → Nat → Bytes → Bytes → σ
  delete_cf : σ → Nat → Bytes → σ
  single_delete_cf : σ → Nat → Bytes → σ
  delete_range_cf : σ → Nat → Bytes → Bytes → σ
  merge_cf : σ → Nat → Bytes → Bytes → σ
  log_data : σ → Bytes → σ
  mark_begin_prepare : σ → σ
  mark_end_prepare : σ → Bytes → σ
  mark_rollback : σ → Bytes → σ
  mark_commit : σ → Bytes → σ
  will_continue : σ → Bool

/-- `rocks_writebatch_handler_t` (ctypes.hpp): a `WriteBatch::Handler`
whose every override forwards to the corresponding
`rust_write_batch_handler_*` callback (each returning `Status::OK()`),
and whose `Continue()` forwards to
`rust_write_batch_handler_will_continue`. -/
def rocks_writebatch_handler_t {σ : Type} (obj : RustWBHandler σ) :
    WBHandler σ where
  PutCF s cf k v := obj.put_cf s cf k v
  DeleteCF s cf k := obj.delete_cf s cf k
  SingleDeleteCF s cf k := obj.single_delete_cf s cf k
  DeleteRangeCF s cf b e := obj.delete_range_cf s cf b e
  MergeCF s cf k v := obj.merge_cf s cf k v
  LogData s blob := obj.log_data s blob
  MarkBeginPrepare s := obj.mark_begin_prepare s
  MarkEndPrepare s xid := obj.mark_end_prepare s xid
  MarkRollback s xid := obj.mark_rollback s xid
  MarkCommit s xid := obj.mark_commit s xid
  Continue s := obj.will_continue s

/-- The handler class `H` built by `rocks_writebatch_iterate`
(write_batch.cc): it overrides only `Put` (forwarding to the `put` C
function pointer) and `Delete` (forwarding to `deleted`).  Modelled from
the spec for the non-overridden kinds: `H` supplies no callback for
them, so no foreign callback fires (§4.1 dispatches per record kind
only to the callbacks the handler has), and `H` does not override
`Continue()`, so it never signals stop. -/
def cFuncHandler {σ : Type} (put : σ → Bytes → Bytes → σ)
    (deleted : σ → Bytes → σ) : WBHandler σ where
  PutCF s cf k v := put s k v
  DeleteCF s cf k := deleted s k
  SingleDeleteCF s cf k := s
  DeleteRangeCF s cf b e := s
  MergeCF s cf k v := s
  LogData s blob := s
  MarkBeginPrepare s := s
  MarkEndPrepare s xid := s
  MarkRollback s xid := s
  MarkCommit s xid := s
  Continue s := true

/-- `rocks_writebatch_iterate` (write_batch.cc): iterates the batch with
the two-function-pointer handler `H`. -/
def rocks_writebatch_iterate {σ : Type} (b : WriteBatch) (s : σ)
    (put : σ → Bytes → Bytes → σ) (deleted : σ → Bytes → σ) : σ :=
  b.Iterate (cFuncHandler put deleted) s

/-- A recording `put` callback for concrete runs: logs `1`. -/
def exPut : List Nat → Bytes → Bytes → List Nat := fun s _ _ => s ++ [1]

/-- A recording `deleted` callback for concrete runs: logs `2`. -/
def exDel : List Nat → Bytes → List Nat := fun s _ => s ++ [2]

/-- A recording Rust handler for concrete runs: logs a distinct tag per
callback kind; `cont` decides `will_continue` from the event log. -/
def exRustHandler (cont : List Nat → Bool) : RustWBHandler (List Nat) where
  put_cf s _ _ _ := s ++ [1]
  delete_cf s _ _ := s ++ [2]
  single_delete_cf s _ _ := s ++ [3]
  delete_range_cf s _ _ _ := s ++ [4]
  merge_cf s _ _ _ := s ++ [5]
  log_data s _ := s ++ [6]
  mark_begin_prepare s := s ++ [7]
  mark_end_prepare s _ := s ++ [8]
  mark_rollback s _ := s ++ [9]
  mark_commit s _ := s ++ [10]
  will_continue s := cont s

/-- `rocksdb::MergeOperator::MergeOperationInput`. -/
structure MergeOperationInput where
  key : Bytes
  existing_value : Option Bytes
  operand_list : List Bytes
  deriving DecidableEq, Repr

/-- `rocksdb::MergeOperator::MergeOperationOutput`: `new_value` is the
string result channel; `existing_operand` is the slice result channel,
`none` meaning its `data()` is null. -/
structure MergeOperationOutput where
  new_value : Bytes
  existing_operand : Option Bytes
  deriving DecidableEq, Repr

/-- `rocks_mergeoperator_t::FullMergeV2` (ctypes.hpp): calls the foreign
`rust_merge_operator_call_full_merge_v2` callback (which may mutate
`merge_out`), then, when `merge_out->existing_operand.data()` is not
null, clears `merge_out->new_value`; returns `ret != 0` and the final
`merge_out`. -/
def rocks_mergeoperator_FullMergeV2
    (callback : MergeOperationInput → MergeOperationOutput →
      Nat × MergeOperationOutput)
    (merge_in : MergeOperationInput) (merge_out : MergeOperationOutput) :
    Bool × MergeOperationOutput :=
  let r := callback merge_in merge_out
  let out := if r.2.existing_operand.isSome then
      { r.2 with new_value := [] }
    else r.2
  (r.1 ≠ 0, out)

/-- The externally visible effects of one `rocks_db_key_may_exist*`
call: the C return value, every `rust_vec_u8_assign` call it made
(target pointer — `none` is the null pointer — and the bytes written),
and every write through the `value_found` out-pointer. -/
structure KeyMayExistEffects where
  ret : Bool
  assigns : List (Option Nat × Bytes)
  foundWrites : List (Nat × Bool)
  deriving DecidableEq, Repr

/-- `rocks_db_key_may_exist` (db.cc).  The engine's `DB::KeyMayExist`
answer is the oracle triple `(has_value, val, found)` (it is engine
code, absent from src/).  The shim copies `val` out through
`rust_vec_u8_assign` only when `has_value && value != nullptr`, and
writes `found` through `value_found` when that pointer is not null. -/
def rocks_db_key_may_exist (has_value : Bool) (val : Bytes) (found : Bool)
    (value : Option Nat) (value_found : Option Nat) : KeyMayExistEffects :=
  { ret := has_value
    assigns :=
      if has_value && value.isSome then [(value, val)] else []
    foundWrites :=
      match value_found with
      | some p => [(p, found)]
      | none => [] }

/-- `rocks_db_key_may_exist_cf` (db.cc).  With a non-null `value_found`
it calls the engine with a value buffer and then copies the bytes out
through `rust_vec_u8_assign` whenever `has_value && value_found !=
nullptr` — the guard re-checks `value_found`, not `value`, so the
assign call happens even when `value` is the null pointer; with a null
`value_found` it calls the engine without a value buffer. -/
def rocks_db_key_may_exist_cf (has_value : Bool) (val : Bytes)
    (found : Bool) (value : Option Nat) (value_found : Option Nat) :
    KeyMayExistEffects :=
  match value_found with
  | some p =>
      { ret := has_value
        assigns :=
          if has_value && (some p).isSome then [(value, val)] else []
        foundWrites := [(p, found)] }
  | none => { ret := has_value, assigns := [], foundWrites := [] }

/-- A concrete memory layout: key bytes `[1, 2]` at addresses 0..1 and
value bytes `[7, 0, 9]` — an embedded zero at offset 1 — at 2..4. -/
def c6mem : Nat → Nat :=
  fun a => if a < 2 then a + 1 else [7, 0, 9].getD (a - 2) 0

/-- C1: a successful `rocks_db_put(db, opts, k, v)` followed by
`rocks_db_get_pinnable(db, opts, k)` (same column family, no intervening
delete) yields a null status out-parameter and a pinnable slice whose
bytes are exactly the `vallen` value bytes that were put. -/
theorem c1_write_then_read (db : EngineDB) (mem : Nat → Nat)
    (key keylen val vallen : Nat)
    (hput : (rocks_db_put db mem key keylen val vallen).2 = none) :
    rocks_db_get_pinnable (rocks_db_put db mem key keylen val vallen).1
        mem key keylen
      = (sliceBytes mem val vallen, none) := by
  simp [rocks_db_put, rocks_db_get_pinnable, DB.Put, DB.Get, findRecord,
    SaveError, Status.OK]

/-- C1 witness: a concrete put of value bytes `[7, 0, 9]` under key
`[1, 2]` read back unchanged. -/
theorem c1_write_then_read_witness :
    (rocks_db_put [] (fun a => if a < 2 then a + 1 else [7, 0, 9].getD (a - 2) 0)
        0 2 2 3).2 = none
      ∧ rocks_db_get_pinnable
          (rocks_db_put []
            (fun a => if a < 2 then a + 1 else [7, 0, 9].getD (a - 2) 0)
            0 2 2 3).1
          (fun a => if a < 2 then a + 1 else [7, 0, 9].getD (a - 2) 0) 0 2
        = ([7, 0, 9], none) := by
  refine ⟨by decide, ?_⟩
  have h := c1_write_then_read []
    (fun a => if a < 2 then a + 1 else [7, 0, 9].getD (a - 2) 0)
    0 2 2 3 (by decide)
  rw [h]
  decide

/-- Every batch operation appends exactly its record and leaves the
save-point stack alone. -/
theorem applyOp_spec (b : WriteBatch) (op : WBOp) :
    (applyOp b op).records = b.records ++ [op.record]
      ∧ (applyOp b op).savePoints = b.savePoints := by
  cases op <;>
    simp [applyOp, WBOp.record, WriteBatch.Put, WriteBatch.Delete,
      WriteBatch.SingleDelete, WriteBatch.DeleteRange, WriteBatch.Merge,
      WriteBatch.PutLogData]

/-- A sequence of batch operations appends its records in order and
leaves the save-point stack alone. -/
theorem applyOps_spec (ops : List WBOp) :
    ∀ b : WriteBatch,
      (applyOps b ops).records = b.records ++ ops.map WBOp.record
        ∧ (applyOps b ops).savePoints = b.savePoints := by
  induction ops with
  | nil => intro b; simp [applyOps]
  | cons op rest ih =>
      intro b
      have h := applyOp_spec b op
      have h' := ih (applyOp b op)
      refine ⟨?_, by simp [applyOps] at h' ⊢; rw [h'.2, h.2]⟩
      simp [applyOps] at h' ⊢
      rw [h'.1, h.1]
      simp

/-- C2: rolling a batch back to a save point truncates exactly the
operations performed since `rocks_writebatch_set_save_point` and
reports success (null status out-parameter); with no save point set the
batch is left unchanged and a NotFound status is reported. -/
theorem c2_savepoint_rollback :
    (∀ (b : WriteBatch) (ops : List WBOp),
        rocks_writebatch_rollback_to_save_point
            (applyOps (rocks_writebatch_set_save_point b) ops)
          = (⟨b.records, b.savePoints⟩, none))
      ∧ (∀ b : WriteBatch, b.savePoints = [] →
          rocks_writebatch_rollback_to_save_point b = (b, some Status.NotFound)
            ∧ Status.NotFound.code = .notFound) := by
  constructor
  · intro b ops
    have h := applyOps_spec ops (rocks_writebatch_set_save_point b)
    have hrec : (applyOps (rocks_writebatch_set_save_point b) ops).records
        = b.records ++ ops.map WBOp.record := by
      rw [h.1]; rfl
    have hsp : (applyOps (rocks_writebatch_set_save_point b) ops).savePoints
        = b.records.length :: b.savePoints := by
      rw [h.2]; rfl
    simp only [rocks_writebatch_rollback_to_save_point,
      WriteBatch.RollbackToSavePoint, hsp, hrec, List.take_left, SaveError,
      Status.OK]
    rfl
  · intro b hb
    refine ⟨?_, rfl⟩
    simp [rocks_writebatch_rollback_to_save_point,
      WriteBatch.RollbackToSavePoint, hb, SaveError, Status.NotFound]

/-- C2 witness: a one-record batch, save point, one delete, rollback
restores the original batch with success; rollback on a batch with an
empty save-point stack fails with NotFound and changes nothing. -/
theorem c2_savepoint_rollback_witness :
    rocks_writebatch_rollback_to_save_point
        (applyOps
          (rocks_writebatch_set_save_point ⟨[.putRec 0 [1] [2]], []⟩)
          [.deleteOp 0 [1]])
      = (⟨[.putRec 0 [1] [2]], []⟩, none)
    ∧ rocks_writebatch_rollback_to_save_point ⟨[.putRec 0 [1] [2]], []⟩
      = (⟨[.putRec 0 [1] [2]], []⟩, some Status.NotFound) :=
  ⟨c2_savepoint_rollback.1 ⟨[.putRec 0 [1] [2]], []⟩ [.deleteOp 0 [1]],
    (c2_savepoint_rollback.2 ⟨[.putRec 0 [1] [2]], []⟩ rfl).1⟩

/-- Iteration with a handler whose `Continue()` is constantly true is a
plain left fold of the dispatch function. -/
theorem iterateRecs_eq_foldl {σ : Type} (h : WBHandler σ)
    (hc : ∀ t, h.Continue t = true) :
    ∀ (recs : List WBRecord) (s : σ),
      h.iterateRecs s recs = recs.foldl h.dispatch s := by
  intro recs
  induction recs with
  | nil => intro s; rfl
  | cons r rs ih => intro s; simp [WBHandler.iterateRecs, hc, ih]

/-- C3 counterexample: through the C-function-pointer entry point
`rocks_writebatch_iterate`, a batch holding one SingleDelete record
dispatches no handler callback at all (the recording callbacks log
nothing), refuting "one handler callback per record kind … for both
iteration entry points". -/
theorem c3_counterexample :
    rocks_writebatch_iterate ⟨[.singleDeleteRec 0 [7]], []⟩ ([] : List Nat)
        exPut exDel = []
      ∧ ¬ (rocks_writebatch_iterate ⟨[.singleDeleteRec 0 [7]], []⟩
            ([] : List Nat) exPut exDel).length
          = (⟨[.singleDeleteRec 0 [7]], []⟩ : WriteBatch).records.length := by
  constructor
  · rfl
  · decide

/-- C3 (amended): iteration replays records in insertion order.  The
trait-object handler `rocks_writebatch_handler_t` dispatches the
matching foreign callback for every record kind and ends early when
`will_continue` returns false.  The C-function-pointer entry point
`rocks_writebatch_iterate` dispatches callbacks only for Put and Delete
records, leaves the handler state untouched on every other record kind,
and never stops early (its handler's `Continue()` is constantly true). -/
theorem c3_iterate_dispatch :
    (∀ (σ : Type) (obj : RustWBHandler σ),
        (∀ t, obj.will_continue t = true) →
        ∀ (s : σ) (b : WriteBatch),
          b.Iterate (rocks_writebatch_handler_t obj) s
            = b.records.foldl (rocks_writebatch_handler_t obj).dispatch s)
      ∧ (∀ (σ : Type) (obj : RustWBHandler σ) (s : σ),
          obj.will_continue s = false →
          ∀ recs, (rocks_writebatch_handler_t obj).iterateRecs s recs = s)
      ∧ (∀ (σ : Type) (obj : RustWBHandler σ) (s : σ) (cf : Nat)
            (k v e blob xid : Bytes),
          (rocks_writebatch_handler_t obj).dispatch s (.putRec cf k v)
              = obj.put_cf s cf k v
            ∧ (rocks_writebatch_handler_t obj).dispatch s (.deleteRec cf k)
              = obj.delete_cf s cf k
            ∧ (rocks_writebatch_handler_t obj).dispatch s
                (.singleDeleteRec cf k) = obj.single_delete_cf s cf k
            ∧ (rocks_writebatch_handler_t obj).dispatch s
                (.deleteRangeRec cf k e) = obj.delete_range_cf s cf k e
            ∧ (rocks_writebatch_handler_t obj).dispatch s (.mergeRec cf k v)
              = obj.merge_cf s cf k v
            ∧ (rocks_writebatch_handler_t obj).dispatch s (.logDataRec blob)
              = obj.log_data s blob
            ∧ (rocks_writebatch_handler_t obj).dispatch s .beginPrepareRec
              = obj.mark_begin_prepare s
            ∧ (rocks_writebatch_handler_t obj).dispatch s (.endPrepareRec xid)
              = obj.mark_end_prepare s xid
            ∧ (rocks_writebatch_handler_t obj).dispatch s (.commitRec xid)
              = obj.mark_commit s xid
            ∧ (rocks_writebatch_handler_t obj).dispatch s (.rollbackRec xid)
              = obj.mark_rollback s xid)
      ∧ (∀ (σ : Type) (put : σ → Bytes → Bytes → σ) (deleted : σ → Bytes → σ)
            (s : σ) (b : WriteBatch),
          rocks_writebatch_iterate b s put deleted
            = b.records.foldl (cFuncHandler put deleted).dispatch s)
      ∧ (∀ (σ : Type) (put : σ → Bytes → Bytes → σ) (deleted : σ → Bytes → σ)
            (s : σ) (cf : Nat) (k v e blob xid : Bytes),
          (cFuncHandler put deleted).dispatch s (.putRec cf k v) = put s k v
            ∧ (cFuncHandler put deleted).dispatch s (.deleteRec cf k)
              = deleted s k
            ∧ (cFuncHandler put deleted).dispatch s (.singleDeleteRec cf k) = s
            ∧ (cFuncHandler put deleted).dispatch s (.deleteRangeRec cf k e) = s
            ∧ (cFuncHandler put deleted).dispatch s (.mergeRec cf k v) = s
            ∧ (cFuncHandler put deleted).dispatch s (.logDataRec blob) = s
            ∧ (cFuncHandler put deleted).dispatch s .beginPrepareRec = s
            ∧ (cFuncHandler put deleted).dispatch s (.endPrepareRec xid) = s
            ∧ (cFuncHandler put deleted).dispatch s (.commitRec xid) = s
            ∧ (cFuncHandler put deleted).dispatch s (.rollbackRec xid) = s
            ∧ (cFuncHandler put deleted).Continue s = true) := by
  refine ⟨?_, ?_, ?_, ?_, ?_⟩
  · intro σ obj hc s b
    exact iterateRecs_eq_foldl _ hc b.records s
  · intro σ obj s hstop recs
    cases recs with
    | nil => rfl
    | cons r rs =>
        simp [WBHandler.iterateRecs, rocks_writebatch_handler_t, hstop]
  · intro σ obj s cf k v e blob xid
    exact ⟨rfl, rfl, rfl, rfl, rfl, rfl, rfl, rfl, rfl, rfl⟩
  · intro σ put deleted s b
    exact iterateRecs_eq_foldl _ (fun _ => rfl) b.records s
  · intro σ put deleted s cf k v e blob xid
    exact ⟨rfl, rfl, rfl, rfl, rfl, rfl, rfl, rfl, rfl, rfl, rfl⟩

/-- C3 witness: a concrete always-continue trait handler replays a
two-record batch fully (events `[1, 5]`: one Put callback, one Merge
callback), and a handler whose `will_continue` is false from the start
processes nothing. -/
theorem c3_iterate_dispatch_witness :
    (⟨[.putRec 0 [1] [2], .mergeRec 0 [1] [3]], []⟩ : WriteBatch).Iterate
        (rocks_writebatch_handler_t (exRustHandler (fun _ => true)))
        ([] : List Nat)
      = [1, 5]
    ∧ (rocks_writebatch_handler_t (exRustHandler (fun _ => false))).iterateRecs
        ([] : List Nat) [.putRec 0 [1] [2]]
      = [] := by
  constructor
  · have h := c3_iterate_dispatch.1 (List Nat)
      (exRustHandler (fun _ => true)) (fun t => rfl) []
      ⟨[.putRec 0 [1] [2], .mergeRec 0 [1] [3]], []⟩
    rw [h]
    decide
  · exact c3_iterate_dispatch.2.1 (List Nat)
      (exRustHandler (fun _ => false)) [] rfl [.putRec 0 [1] [2]]

/-- C4: the get path reports its outcome through the status
out-parameter: `SaveError` stores null exactly on OK and a fresh status
holding the engine status otherwise; a found key yields a null status;
an absent key yields a NotFound status whose `rocks_status_code` is 1;
and `rocks_status_code` separates every pair of distinct status kinds
(NotFound, Corruption, IOError, ...). -/
theorem c4_get_status_reporting :
    (∀ st : Status,
        (SaveError st = none ↔ st.code = .ok)
          ∧ (st.code ≠ .ok → SaveError st = some st))
      ∧ (∀ (db : EngineDB) (mem : Nat → Nat) (key keylen : Nat) (v : Bytes),
          findRecord db (sliceBytes mem key keylen) = some (some v) →
          (rocks_db_get_pinnable db mem key keylen).2 = none)
      ∧ (∀ (db : EngineDB) (mem : Nat → Nat) (key keylen : Nat),
          findRecord db (sliceBytes mem key keylen) = none →
          (rocks_db_get_pinnable db mem key keylen).2 = some Status.NotFound
            ∧ rocks_status_code Status.NotFound = 1)
      ∧ (∀ c c' : StatusCode, c.toCInt = c'.toCInt → c = c') := by
  refine ⟨?_, ?_, ?_, ?_⟩
  · intro st
    constructor
    · constructor
      · intro h
        by_contra hc
        simp [SaveError, hc] at h
      · intro h; simp [SaveError, h]
    · intro h; simp [SaveError, h]
  · intro db mem key keylen v h
    simp [rocks_db_get_pinnable, DB.Get, h, SaveError, Status.OK]
  · intro db mem key keylen h
    refine ⟨?_, rfl⟩
    simp [rocks_db_get_pinnable, DB.Get, h, SaveError, Status.NotFound]
  · decide

/-- C4 witness: concrete instances — a NotFound status is saved as-is,
a present key reports null, an absent key reports NotFound with C code
1, and equal C codes force equal kinds. -/
theorem c4_get_status_reporting_witness :
    SaveError Status.NotFound = some Status.NotFound
    ∧ (rocks_db_get_pinnable [([0], some [9])] (fun _ => 0) 0 1).2 = none
    ∧ ((rocks_db_get_pinnable [] (fun _ => 0) 0 1).2 = some Status.NotFound
        ∧ rocks_status_code Status.NotFound = 1)
    ∧ StatusCode.notFound = StatusCode.notFound :=
  ⟨(c4_get_status_reporting.1 Status.NotFound).2 (by decide),
    c4_get_status_reporting.2.1 [([0], some [9])] (fun _ => 0) 0 1 [9]
      (by decide),
    c4_get_status_reporting.2.2.1 [] (fun _ => 0) 0 1 (by decide),
    c4_get_status_reporting.2.2.2 .notFound .notFound rfl⟩

/-- C5: the default column family handle has id 0; dropping it through
`rocks_db_drop_column_family` reports an error status and leaves the
engine's column families untouched; dropping an open non-default column
family succeeds; and `rocks_column_family_handle_destroy` never deletes
the underlying handle when its id is 0. -/
theorem c5_default_cf :
    (∀ db : EngineCFs, (rocks_db_default_column_family db).id = 0)
      ∧ (∀ db : EngineCFs,
          (rocks_db_drop_column_family db
              (rocks_db_default_column_family db)).2
              = some (Status.InvalidArgument [])
            ∧ (rocks_db_drop_column_family db
                (rocks_db_default_column_family db)).1 = db)
      ∧ (∀ (db : EngineCFs) (h : ColumnFamilyHandle),
          h.id ≠ 0 → h ∈ db.cfs →
          (rocks_db_drop_column_family db h).2 = none)
      ∧ (∀ h : ColumnFamilyHandle, h.id = 0 →
          (rocks_column_family_handle_destroy h).1 = false) := by
  refine ⟨fun db => rfl, ?_, ?_, ?_⟩
  · intro db
    constructor <;>
      simp [rocks_db_drop_column_family, DB.DropColumnFamily,
        rocks_db_default_column_family, DB.DefaultColumnFamily, SaveError,
        Status.InvalidArgument]
  · intro db h hid hmem
    simp [rocks_db_drop_column_family, DB.DropColumnFamily, hid, hmem,
      SaveError, Status.OK]
  · intro h hid
    simp [rocks_column_family_handle_destroy, hid]

/-- C5 witness: a DB with the default column family and one other; the
default handle has id 0, dropping it errors and changes nothing,
dropping the other succeeds, and destroy keeps the id-0 handle alive. -/
theorem c5_default_cf_witness :
    (rocks_db_default_column_family ⟨[⟨0, defaultCFName⟩, ⟨1, [99]⟩]⟩).id = 0
    ∧ ((rocks_db_drop_column_family ⟨[⟨0, defaultCFName⟩, ⟨1, [99]⟩]⟩
          (rocks_db_default_column_family ⟨[⟨0, defaultCFName⟩, ⟨1, [99]⟩]⟩)).2
          = some (Status.InvalidArgument [])
        ∧ (rocks_db_drop_column_family ⟨[⟨0, defaultCFName⟩, ⟨1, [99]⟩]⟩
            (rocks_db_default_column_family
              ⟨[⟨0, defaultCFName⟩, ⟨1, [99]⟩]⟩)).1
          = ⟨[⟨0, defaultCFName⟩, ⟨1, [99]⟩]⟩)
    ∧ (rocks_db_drop_column_family ⟨[⟨0, defaultCFName⟩, ⟨1, [99]⟩]⟩
        ⟨1, [99]⟩).2 = none
    ∧ (rocks_column_family_handle_destroy ⟨0, defaultCFName⟩).1 = false :=
  ⟨c5_default_cf.1 ⟨[⟨0, defaultCFName⟩, ⟨1, [99]⟩]⟩,
    c5_default_cf.2.1 ⟨[⟨0, defaultCFName⟩, ⟨1, [99]⟩]⟩,
    c5_default_cf.2.2.1 ⟨[⟨0, defaultCFName⟩, ⟨1, [99]⟩]⟩ ⟨1, [99]⟩
      (by decide) (by decide),
    c5_default_cf.2.2.2 ⟨0, defaultCFName⟩ rfl⟩

/-- C6: keys and values are length-delimited byte ranges: a slice built
with an explicit length holds exactly that many bytes regardless of
their values, the batch put forwards exactly those bytes, and a value
containing an embedded zero byte round-trips unchanged through
`rocks_db_put` / `rocks_db_get_pinnable` with its data and size intact. -/
theorem c6_length_delimited (mem : Nat → Nat)
    (key keylen val vallen : Nat) (db : EngineDB) (b : WriteBatch)
    (hzero : ∃ i, i < vallen ∧ mem (val + i) = 0) :
    (sliceBytes mem key keylen).length = keylen
      ∧ (sliceBytes mem val vallen).length = vallen
      ∧ (rocks_writebatch_put b mem key keylen val vallen).records
        = b.records
          ++ [.putRec 0 (sliceBytes mem key keylen) (sliceBytes mem val vallen)]
      ∧ rocks_pinnable_slice_data
          (rocks_db_get_pinnable (rocks_db_put db mem key keylen val vallen).1
            mem key keylen).1
        = sliceBytes mem val vallen
      ∧ rocks_pinnable_slice_size
          (rocks_db_get_pinnable (rocks_db_put db mem key keylen val vallen).1
            mem key keylen).1
        = vallen
      ∧ (rocks_db_get_pinnable (rocks_db_put db mem key keylen val vallen).1
          mem key keylen).2 = none := by
  refine ⟨by simp [sliceBytes], by simp [sliceBytes], ?_, ?_, ?_, ?_⟩
  · simp [rocks_writebatch_put, WriteBatch.Put]
  · simp [rocks_db_put, rocks_db_get_pinnable, DB.Put, DB.Get, findRecord,
      SaveError, Status.OK, rocks_pinnable_slice_data]
  · simp [rocks_db_put, rocks_db_get_pinnable, DB.Put, DB.Get, findRecord,
      SaveError, Status.OK, rocks_pinnable_slice_size, sliceBytes]
  · simp [rocks_db_put, rocks_db_get_pinnable, DB.Put, DB.Get, findRecord,
      SaveError, Status.OK]

/-- C6 witness: key `[1, 2]` and value `[7, 0, 9]` (embedded zero at
offset 1) laid out in concrete memory: lengths are exact, the batch
record holds the exact bytes, and the value round-trips with size 3. -/
theorem c6_length_delimited_witness :
    (sliceBytes c6mem 0 2).length = 2
      ∧ (sliceBytes c6mem 2 3).length = 3
      ∧ (rocks_writebatch_put ⟨[], []⟩ c6mem 0 2 2 3).records
        = [.putRec 0 [1, 2] [7, 0, 9]]
      ∧ rocks_pinnable_slice_data
          (rocks_db_get_pinnable (rocks_db_put [] c6mem 0 2 2 3).1 c6mem 0 2).1
        = [7, 0, 9]
      ∧ rocks_pinnable_slice_size
          (rocks_db_get_pinnable (rocks_db_put [] c6mem 0 2 2 3).1 c6mem 0 2).1
        = 3
      ∧ (rocks_db_get_pinnable (rocks_db_put [] c6mem 0 2 2 3).1 c6mem 0 2).2
        = none := by
  have h := c6_length_delimited c6mem 0 2 2 3 [] ⟨[], []⟩
    ⟨1, by decide, by decide⟩
  refine ⟨h.1, h.2.1, ?_, ?_, h.2.2.2.2.1, h.2.2.2.2.2⟩
  · rw [h.2.2.1]; decide
  · rw [h.2.2.2.1]; decide

/-- C7: when the option map passed to `rocks_db_set_options_cf` or
`rocks_db_set_db_options` holds at least one option name the engine
does not recognize, both calls store a status whose code is
`InvalidArgument` — no unrecognized name is silently ignored. -/
theorem c7_set_options_rejects_unrecognized
    (recognized : List Bytes) (mem : Nat → Nat) (num_options : Nat)
    (keys key_lens vals val_lens : Nat → Nat)
    (hbad : ∃ kv ∈ buildOptionsMap mem num_options keys key_lens vals val_lens,
      recognized.contains kv.1 = false) :
    rocks_db_set_options_cf recognized mem num_options keys key_lens vals
          val_lens
        = some (Status.InvalidArgument [])
      ∧ rocks_db_set_db_options recognized mem num_options keys key_lens vals
          val_lens
        = some (Status.InvalidArgument [])
      ∧ (Status.InvalidArgument []).code = .invalidArgument := by
  obtain ⟨kv, hmem, hk⟩ := hbad
  have hall : ¬ ((buildOptionsMap mem num_options keys key_lens vals
      val_lens).all (fun kv => recognized.contains kv.1) = true) := by
    intro h
    have := List.all_eq_true.mp h kv hmem
    rw [hk] at this
    exact Bool.false_ne_true this
  refine ⟨?_, ?_, rfl⟩
  · show SaveError (DB.SetOptions recognized
      (buildOptionsMap mem num_options keys key_lens vals val_lens)) = _
    unfold DB.SetOptions
    rw [if_neg hall]
    rfl
  · show SaveError (DB.SetDBOptions recognized
      (buildOptionsMap mem num_options keys key_lens vals val_lens)) = _
    unfold DB.SetDBOptions
    rw [if_neg hall]
    rfl

/-- C7 witness: with no recognized names and one option named `[0]`,
both reconfiguration calls report InvalidArgument. -/
theorem c7_set_options_rejects_unrecognized_witness :
    rocks_db_set_options_cf [] (fun _ => 0) 1 (fun _ => 0) (fun _ => 1)
        (fun _ => 0) (fun _ => 1)
      = some (Status.InvalidArgument [])
    ∧ rocks_db_set_db_options [] (fun _ => 0) 1 (fun _ => 0) (fun _ => 1)
        (fun _ => 0) (fun _ => 1)
      = some (Status.InvalidArgument []) := by
  have h := c7_set_options_rejects_unrecognized [] (fun _ => 0) 1
    (fun _ => 0) (fun _ => 1) (fun _ => 0) (fun _ => 1)
    ⟨([0], [0]), by decide, by decide⟩
  exact ⟨h.1, h.2.1⟩

/-- C8: `rocks_status_create_with_code_and_msg` always returns a status
whose code is `InvalidArgument` and whose message is exactly the `len`
bytes at `msg`; the integer `code` argument has no effect on the result. -/
theorem c8_create_with_code_ignores_code :
    ∀ (code code' : Int) (mem : Nat → Nat) (msg len : Nat),
      (rocks_status_create_with_code_and_msg code mem msg len).code
          = .invalidArgument
        ∧ (rocks_status_create_with_code_and_msg code mem msg len).msg
          = sliceBytes mem msg len
        ∧ rocks_status_create_with_code_and_msg code mem msg len
          = rocks_status_create_with_code_and_msg code' mem msg len := by
  intro code code' mem msg len
  exact ⟨rfl, rfl, rfl⟩

/-- C9: after `rocks_mergeoperator_t::FullMergeV2`, the two result
channels are mutually exclusive: whenever the returned `merge_out` has a
non-null `existing_operand`, its `new_value` has been cleared. -/
theorem c9_full_merge_exclusive
    (callback : MergeOperationInput → MergeOperationOutput →
      Nat × MergeOperationOutput)
    (merge_in : MergeOperationInput) (merge_out : MergeOperationOutput)
    (hop : (rocks_mergeoperator_FullMergeV2 callback merge_in
        merge_out).2.existing_operand.isSome = true) :
    (rocks_mergeoperator_FullMergeV2 callback merge_in merge_out).2.new_value
      = [] := by
  by_cases hx : (callback merge_in merge_out).2.existing_operand.isSome = true
  · simp [rocks_mergeoperator_FullMergeV2, hx]
  · simp [rocks_mergeoperator_FullMergeV2, hx] at hop

/-- C9 witness: a callback that fills both channels; the wrapper clears
`new_value`, so the caller sees only the existing operand. -/
theorem c9_full_merge_exclusive_witness :
    (rocks_mergeoperator_FullMergeV2 (fun _ _ => (1, ⟨[5], some [6]⟩))
        ⟨[1], none, [[2]]⟩ ⟨[], none⟩).2.new_value = [] :=
  c9_full_merge_exclusive (fun _ _ => (1, ⟨[5], some [6]⟩))
    ⟨[1], none, [[2]]⟩ ⟨[], none⟩ (by decide)

/-- C10: evaluation at the failing input.  When the key has a value
(`has_value = true`), the `value` out-pointer is null and `value_found`
is non-null, `rocks_db_key_may_exist_cf` still performs a
`rust_vec_u8_assign` call whose target is the null pointer (first
conjunct), while `rocks_db_key_may_exist` on the same input performs no
assign call (second conjunct) — the cf variant's guard re-checks
`value_found` where the non-cf variant checks `value`. -/
theorem c10_key_may_exist_cf_null_value_write :
    rocks_db_key_may_exist_cf true [9] true none (some 5)
        = ⟨true, [(none, [9])], [(5, true)]⟩
      ∧ rocks_db_key_may_exist true [9] true none (some 5)
        = ⟨true, [], [(5, true)]⟩ := by
  constructor <;> rfl

end RocksSys
